import Mathlib

/-!
Shallow embedding of the SyntaxTual VS Code extension's analysis and
conversation core (src/src/services/codeAnalyzer.ts,
src/src/services/openaiService.ts, the ConversationManager and the
ConfigManager), together with theorems settling the specification
claims about it.

External boundaries (the remote chat-completion API, the JSON library,
the system clock) are modelled as explicit inputs: each remote call's
outcome is a parameter of `Except` type, `Date.now()` becomes a `now`
argument, and `JSON.parse` becomes a parse-function argument.
-/

namespace Syntax2Proof

/-- The closed severity enum `type Severity = 'error' | 'warning' | 'info'`
(src/src/providers/sidebarProvider.ts). -/
inductive Severity where
  | error
  | warning
  | info
deriving DecidableEq, Repr

/-- The raw string a `Severity` value is in TypeScript. -/
def Severity.toStr : Severity → String
  | .error => "error"
  | .warning => "warning"
  | .info => "info"

/-- The closed enum of 10 anomaly types (`enum AnomalyType`). -/
inductive AnomalyType where
  | potentialBug
  | securityIssue
  | performance
  | codeSmell
  | bestPractice
  | logicError
  | typeMismatch
  | unusedCode
  | complexity
  | namingConvention
deriving DecidableEq, Repr

/-- A `vscode.Range` as constructed by the anomaly parser:
`new vscode.Range(startLine, 0, endLine, …)`. Line numbers are `Int`
because the clamped end line `min(lines.length - 1, endLine - 1)` can
be negative in JavaScript. -/
structure VsRange where
  startLine : Int
  startChar : Nat
  endLine : Int
  endChar : Nat
deriving DecidableEq, Repr

/-- `interface AnomalyLocation` from the models. -/
structure AnomalyLocation where
  file : String
  range : VsRange
  codeSnippet : Option String
deriving DecidableEq, Repr

/-- `interface Anomaly` from the models (relatedLocations, conversationId
and fix are unused by the analysis core and omitted). -/
structure Anomaly where
  id : String
  type : AnomalyType
  severity : Severity
  location : AnomalyLocation
  title : String
  description : String
  suggestion : Option String
deriving DecidableEq, Repr

/-- `interface AnalysisResult` from the models. -/
structure AnalysisResult where
  anomalies : List Anomaly
  analyzedFiles : List String
  timestamp : Nat
deriving DecidableEq, Repr

/-- `interface ReviewRule` from the models. -/
structure ReviewRule where
  id : String
  name : String
  description : String
  enabled : Bool
  severity : Severity
  pattern : Option String
  prompt : Option String
  languages : Option (List String)
deriving DecidableEq, Repr

/-- `type MessageRole = 'user' | 'assistant' | 'system'`. -/
inductive MessageRole where
  | user
  | assistant
  | system
deriving DecidableEq, Repr

/-- `interface Message` from src/src/models/conversation.ts. -/
structure Message where
  id : String
  role : MessageRole
  content : String
  timestamp : Nat
deriving DecidableEq, Repr

/-- `interface Conversation` from src/src/models/conversation.ts. -/
structure Conversation where
  id : String
  anomalyId : String
  messages : List Message
  createdAt : Nat
  updatedAt : Nat
deriving DecidableEq, Repr

/-- `interface AnomalyContext` from src/src/models/conversation.ts
(the nested `range`/`anomaly` objects are flattened). -/
structure AnomalyContext where
  file : String
  rangeStart : Int
  rangeEnd : Int
  codeSnippet : String
  anomalyTitle : String
  anomalyDescription : String
  anomalyType : String
  language : String
deriving DecidableEq, Repr

/-- Errors thrown by the embedded services: the `Error` objects thrown by
the TypeScript code, discriminated by origin. -/
inductive Err where
  | notConfigured
  | notFound
  | callError (msg : String)
  | parseError (msg : String)
deriving DecidableEq, Repr

/-! A JavaScript `Map<string, α>`: an insertion-ordered association list
with unique keys. `set` replaces the value in place for an existing key
and appends a fresh key; `get` returns the entry or `undefined`;
`delete` removes the entry; `values` iterates in insertion order. -/

/-- A JavaScript `Map<string, α>` as an insertion-ordered entry list. -/
abbrev JsMap (α : Type) : Type := List (String × α)

/-- `Map.prototype.get`, `undefined` as `none`. -/
def JsMap.get? {α : Type} : JsMap α → String → Option α
  | [], _ => none
  | (k', v) :: rest, k => if k' = k then some v else JsMap.get? rest k

/-- `Map.prototype.set`: replace in place when the key exists, append
otherwise. -/
def JsMap.set {α : Type} : JsMap α → String → α → JsMap α
  | [], k, v => [(k, v)]
  | (k', v') :: rest, k, v =>
      if k' = k then (k', v) :: rest else (k', v') :: JsMap.set rest k v

/-- `Map.prototype.delete`. -/
def JsMap.delete {α : Type} : JsMap α → String → JsMap α
  | [], _ => []
  | (k', v) :: rest, k =>
      if k' = k then JsMap.delete rest k else (k', v) :: JsMap.delete rest k

/-- `Map.prototype.values` as a list, in insertion order. -/
def JsMap.values {α : Type} (m : JsMap α) : List α := m.map Prod.snd

/-- `Map.prototype.keys` as a list, in insertion order. -/
def JsMap.keys {α : Type} (m : JsMap α) : List String := m.map Prod.fst


/-! The Model Client (`OpenAIService`, src/src/services/openaiService.ts). -/

/-- One entry of the model's JSON analysis response
(`interface AIAnomaly`): raw strings and 1-indexed inclusive line bounds. -/
structure AIAnomaly where
  type : String
  severity : String
  startLine : Int
  endLine : Int
  title : String
  description : String
  suggestion : Option String
deriving DecidableEq, Repr

/-- `interface AnalysisResponse`: the JSON contract of an analysis reply. -/
structure AnalysisResponse where
  anomalies : List AIAnomaly
deriving DecidableEq, Repr

/-- The part of a chat-completion response the service reads:
`response.choices[0]?.message?.content`, absent as `none`. -/
structure ChatCompletionResponse where
  content : Option String
deriving DecidableEq, Repr

/-- The `typeMap` lookup of `OpenAIService.mapAnomalyType`; unknown strings
fall through `|| AnomalyType.CODE_SMELL`. -/
def OpenAIService.mapAnomalyType (t : String) : AnomalyType :=
  match t with
  | "potential_bug" => .potentialBug
  | "security_issue" => .securityIssue
  | "performance" => .performance
  | "code_smell" => .codeSmell
  | "best_practice" => .bestPractice
  | "logic_error" => .logicError
  | "type_mismatch" => .typeMismatch
  | "unused_code" => .unusedCode
  | "complexity" => .complexity
  | "naming_convention" => .namingConvention
  | _ => .codeSmell

/-- The `severityMap` lookup of `OpenAIService.mapSeverity`; unknown strings
fall through `|| 'info'`. -/
def OpenAIService.mapSeverity (s : String) : Severity :=
  match s with
  | "error" => .error
  | "warning" => .warning
  | "info" => .info
  | _ => .info

/-- Helper for `splitNl`, recursing over the characters. -/
def splitNlChars : List Char → List String
  | [] => [""]
  | c :: rest =>
      let r := splitNlChars rest
      if c = '\n' then "" :: r
      else
        match r with
        | [] => [String.mk [c]]
        | s :: tail => String.mk (c :: s.data) :: tail

/-- JavaScript `content.split('\n')`: the maximal newline-free segments,
with `''.split('\n') = ['']`. -/
def splitNl (content : String) : List String := splitNlChars content.data

/-- `Array.prototype.slice(start, stop)` on a list with `Int` bounds:
negative bounds count from the end, then the half-open window is taken. -/
def jsSlice {α : Type} (l : List α) (start stop : Int) : List α :=
  let n : Int := l.length
  let s := if start < 0 then max 0 (n + start) else min start n
  let e := if stop < 0 then max 0 (n + stop) else min stop n
  (l.take e.toNat).drop s.toNat

/-- `lines[endLine]?.length || 0`: the length of the 0-indexed line at an
`Int` index, `0` when the index is out of bounds (or the line is empty). -/
def lineLength (lines : List String) (i : Int) : Nat :=
  if i < 0 then 0 else ((lines.get? i.toNat).map String.length).getD 0

/-- The body of the `aiAnomalies.map((a, index) => …)` inside
`OpenAIService.parseAnomalies`: clamps the 1-indexed inclusive bounds to a
0-indexed range (`max(0, startLine - 1)`, `min(lines.length - 1,
endLine - 1)`), slices the code snippet and builds the `Anomaly`. -/
def OpenAIService.parseOne (lines : List String) (fileName : String) (now : Nat)
    (index : Nat) (a : AIAnomaly) : Anomaly :=
  let startLine : Int := max 0 (a.startLine - 1)
  let endLine : Int := min ((lines.length : Int) - 1) (a.endLine - 1)
  let codeSnippet := String.intercalate "\n" (jsSlice lines startLine (endLine + 1))
  { id := fileName ++ "-" ++ toString index ++ "-" ++ toString now
    type := OpenAIService.mapAnomalyType a.type
    severity := OpenAIService.mapSeverity a.severity
    location :=
      { file := fileName
        range :=
          { startLine := startLine
            startChar := 0
            endLine := endLine
            endChar := lineLength lines endLine }
        codeSnippet := some codeSnippet }
    title := a.title
    description := a.description
    suggestion := a.suggestion }

/-- The indexed traversal implementing `.map((a, index) => …)`. -/
def OpenAIService.parseAnomaliesFrom (lines : List String) (fileName : String)
    (now : Nat) : Nat → List AIAnomaly → List Anomaly
  | _, [] => []
  | index, a :: rest =>
      OpenAIService.parseOne lines fileName now index a ::
        OpenAIService.parseAnomaliesFrom lines fileName now (index + 1) rest

/-- `OpenAIService.parseAnomalies`: splits the file content on newlines and
maps every reported anomaly through `parseOne`. -/
def OpenAIService.parseAnomalies (aiAnomalies : List AIAnomaly)
    (fileName content : String) (now : Nat) : List Anomaly :=
  let lines := splitNl content
  OpenAIService.parseAnomaliesFrom lines fileName now 0 aiAnomalies

/-- `OpenAIService.analyze`. The remote call's outcome and the JSON library
are explicit inputs. Mirrors the source control flow: no client throws
`NotConfigured`; a missing `content` returns `[]`; the `try`/`catch` only
logs and rethrows, so a remote-call error and a `JSON.parse` failure both
propagate to the caller. -/
def OpenAIService.analyze (clientConfigured : Bool)
    (remote : Except Err ChatCompletionResponse)
    (jsonParse : String → Except Err AnalysisResponse)
    (fileName content : String) (now : Nat) : Except Err (List Anomaly) :=
  if clientConfigured then
    match remote with
    | .error e => .error e
    | .ok response =>
        match response.content with
        | none => .ok []
        | some c =>
            match jsonParse c with
            | .error e => .error e
            | .ok result =>
                .ok (OpenAIService.parseAnomalies result.anomalies fileName content now)
  else .error .notConfigured

/-! The Analysis Engine (`CodeAnalyzer`, src/src/services/codeAnalyzer.ts). -/

/-- The `severityOrder` record of `CodeAnalyzer.filterBySeverity`:
`{ 'error': 0, 'warning': 1, 'info': 2 }`, looked up by string key with
`undefined` as `none`. -/
def severityOrder : String → Option Nat
  | "error" => some 0
  | "warning" => some 1
  | "info" => some 2
  | _ => none

/-- `CodeAnalyzer.filterBySeverity`: keeps anomalies whose severity level is
`<=` the threshold level, both levels defaulting to `2` via `?? 2`. -/
def CodeAnalyzer.filterBySeverity (anomalies : List Anomaly)
    (threshold : String) : List Anomaly :=
  let thresholdLevel := (severityOrder threshold).getD 2
  anomalies.filter fun a => (severityOrder a.severity.toStr).getD 2 ≤ thresholdLevel

/-- `CodeAnalyzer.analyzeFile`: requires a configured client, runs the model
analysis (its outcome is an input), filters by the severity threshold,
caches the filtered result keyed by the file path (overwriting any prior
entry) and returns the filtered list. Failures leave the cache untouched. -/
def CodeAnalyzer.analyzeFile (cache : JsMap AnalysisResult) (configured : Bool)
    (path : String) (analyzeOutcome : Except Err (List Anomaly))
    (threshold : String) (now : Nat) :
    Except Err (List Anomaly) × JsMap AnalysisResult :=
  if configured then
    match analyzeOutcome with
    | .error e => (.error e, cache)
    | .ok anomalies =>
        let filteredAnomalies := CodeAnalyzer.filterBySeverity anomalies threshold
        (.ok filteredAnomalies,
          cache.set path
            { anomalies := filteredAnomalies
              analyzedFiles := [path]
              timestamp := now })
  else (.error .notConfigured, cache)

/-- `CodeAnalyzer.getCachedResults`: with a path, the single cached entry
(`null` as `none`); without one, the aggregate of all cached anomalies and
analyzed files, `null` when the aggregated anomaly list is empty. -/
def CodeAnalyzer.getCachedResults (cache : JsMap AnalysisResult)
    (path : Option String) (now : Nat) : Option AnalysisResult :=
  match path with
  | some p => cache.get? p
  | none =>
      let allAnomalies := ((JsMap.values cache).map AnalysisResult.anomalies).flatten
      let allFiles := ((JsMap.values cache).map AnalysisResult.analyzedFiles).flatten
      if allAnomalies.length = 0 then none
      else some { anomalies := allAnomalies, analyzedFiles := allFiles, timestamp := now }

/-- `CodeAnalyzer.clearCache`: evicts one entry or the whole cache. -/
def CodeAnalyzer.clearCache (cache : JsMap AnalysisResult)
    (path : Option String) : JsMap AnalysisResult :=
  match path with
  | some p => cache.delete p
  | none => []

/-- `CodeAnalyzer.analyzeRepository`: sequentially analyzes the given files
(each paired with its model-call outcome); a successful file appends its
filtered anomalies and its path, a failing file is only logged by the
`catch` and skipped; the aggregate result is returned, not cached. -/
def CodeAnalyzer.analyzeRepository (cache : JsMap AnalysisResult)
    (configured : Bool) (files : List (String × Except Err (List Anomaly)))
    (threshold : String) (now : Nat) :
    Except Err (AnalysisResult × JsMap AnalysisResult) :=
  if configured then
    let step := fun (acc : (List Anomaly × List String) × JsMap AnalysisResult)
        (file : String × Except Err (List Anomaly)) =>
      match CodeAnalyzer.analyzeFile acc.2 configured file.1 file.2 threshold now with
      | (.ok anomalies, cache') => ((acc.1.1 ++ anomalies, acc.1.2 ++ [file.1]), cache')
      | (.error _, cache') => (acc.1, cache')
    let r := files.foldl step (([], []), cache)
    .ok ({ anomalies := r.1.1, analyzedFiles := r.1.2, timestamp := now }, r.2)
  else .error .notConfigured

/-! The Rule Set merge (`ConfigManager.getMergedRules`). -/

/-- `ConfigManager.getMergedRules`: workspace rules enter the `ruleMap`
first, then user rules overwrite any rule with the same id; the merged list
is the map's values in insertion order. -/
def ConfigManager.getMergedRules (workspaceRules userRules : List ReviewRule) :
    List ReviewRule :=
  let ruleMap : JsMap ReviewRule := []
  let ruleMap := workspaceRules.foldl (fun m rule => m.set rule.id rule) ruleMap
  let ruleMap := userRules.foldl (fun m rule => m.set rule.id rule) ruleMap
  JsMap.values ruleMap

/-! The Conversation Store (`ConversationManager`). -/

/-- The observable state of a `ConversationManager`: the in-memory map, the
copy last written to `globalState` by `saveConversations`, and the
`onConversationUpdated` emissions in order. -/
structure ConvState where
  conversations : JsMap Conversation
  persisted : JsMap Conversation
  firedEvents : List Conversation
deriving DecidableEq, Repr

/-- The synthesized opening assistant message content built by
`ConversationManager.startConversation` from the anomaly's title,
description and optional suggestion. -/
def ConversationManager.openingContent (anomaly : Anomaly) : String :=
  "I've identified an issue in your code:\n\n**" ++ anomaly.title ++ "**\n\n" ++
    anomaly.description ++ "\n\n" ++
    (match anomaly.suggestion with
     | some s => "**Suggestion:** " ++ s
     | none => "") ++
    "\n\nWould you like me to explain this issue in more detail or help you fix it?"

/-- `ConversationManager.startConversation`: returns the existing
conversation for the anomaly's id when present; otherwise creates one whose
single message is the synthesized opening assistant message, stores it
under the anomaly id and persists the map. -/
def ConversationManager.startConversation (st : ConvState) (anomaly : Anomaly)
    (now : Nat) : Conversation × ConvState :=
  match st.conversations.get? anomaly.id with
  | some conversation => (conversation, st)
  | none =>
      let initialMessage : Message :=
        { id := "msg-" ++ toString now
          role := .assistant
          content := ConversationManager.openingContent anomaly
          timestamp := now }
      let conversation : Conversation :=
        { id := "conv-" ++ anomaly.id
          anomalyId := anomaly.id
          messages := [initialMessage]
          createdAt := now
          updatedAt := now }
      let conversations := st.conversations.set anomaly.id conversation
      (conversation,
        { st with conversations := conversations, persisted := conversations })

/-- `ConversationManager.sendMessage`: throws `NotFound` when no
conversation exists for the id; otherwise appends the user message to the
conversation object held in the map (a mutation visible in the map before
any remote call), invokes the model chat (a function input) on the
non-system history, and on success appends the assistant reply, persists
the whole map and fires the conversation-updated event. A chat error
propagates after the user message was already appended: nothing is rolled
back, persisted or emitted. -/
def ConversationManager.sendMessage (st : ConvState) (anomalyId content : String)
    (anomalyContext : AnomalyContext)
    (chat : List Message → AnomalyContext → Except Err String)
    (now : Nat) : Except Err Message × ConvState :=
  match st.conversations.get? anomalyId with
  | none => (.error .notFound, st)
  | some conversation =>
      let userMessage : Message :=
        { id := "msg-" ++ toString now
          role := .user
          content := content
          timestamp := now }
      let conversation1 :=
        { conversation with
            messages := conversation.messages ++ [userMessage]
            updatedAt := now }
      let st1 := { st with conversations := st.conversations.set anomalyId conversation1 }
      match chat (conversation1.messages.filter fun m => m.role ≠ .system) anomalyContext with
      | .error e => (.error e, st1)
      | .ok response =>
          let assistantMessage : Message :=
            { id := "msg-" ++ toString (now + 1)
              role := .assistant
              content := response
              timestamp := now }
          let conversation2 :=
            { conversation1 with
                messages := conversation1.messages ++ [assistantMessage]
                updatedAt := now }
          let conversations2 := st1.conversations.set anomalyId conversation2
          (.ok assistantMessage,
            { conversations := conversations2
              persisted := conversations2
              firedEvents := st.firedEvents ++ [conversation2] })

/-! Auxiliary definitions used by the claim statements and witnesses. -/

/-- The severity rank used by the specification: rank(error) = 0,
rank(warning) = 1, rank(info) = 2 (error < warning < info). -/
def severityRank : Severity → Nat
  | .error => 0
  | .warning => 1
  | .info => 2

/-- A concrete 10-line file content for the C3 scenario. -/
def tenLineContent : String := "l1\nl2\nl3\nl4\nl5\nl6\nl7\nl8\nl9\nl10"

/-- A concrete anomaly for instantiating hypothetical theorems. -/
def sampleAnomaly : Anomaly :=
  { id := "a.ts-0-1"
    type := .potentialBug
    severity := .error
    location := { file := "a.ts", range := ⟨0, 0, 0, 1⟩, codeSnippet := some "x" }
    title := "Possible bug"
    description := "Something looks wrong"
    suggestion := some "Fix it" }

/-- A concrete anomaly context for instantiating hypothetical theorems. -/
def sampleContext : AnomalyContext :=
  { file := "a.ts"
    rangeStart := 1
    rangeEnd := 1
    codeSnippet := "x"
    anomalyTitle := "Possible bug"
    anomalyDescription := "Something looks wrong"
    anomalyType := "potential_bug"
    language := "typescript" }

/-- A workspace rule sharing its id with `userRuleShared`. -/
def wsRuleShared : ReviewRule :=
  { id := "no-console"
    name := "No console (workspace)"
    description := "Workspace version"
    enabled := true
    severity := .warning
    pattern := none
    prompt := some "Flag console.log calls"
    languages := none }

/-- A workspace rule whose id appears in no user rule. -/
def wsRuleOnly : ReviewRule :=
  { id := "ws-only"
    name := "Workspace only"
    description := "Only in the workspace config"
    enabled := true
    severity := .info
    pattern := none
    prompt := none
    languages := none }

/-- A user rule sharing its id with `wsRuleShared`. -/
def userRuleShared : ReviewRule :=
  { id := "no-console"
    name := "No console (user)"
    description := "User version"
    enabled := false
    severity := .error
    pattern := some "console"
    prompt := some "Never allow console.log"
    languages := some ["typescript"] }

/-- A user rule whose id appears in no workspace rule. -/
def userRuleOnly : ReviewRule :=
  { id := "user-only"
    name := "User only"
    description := "Only in the user config"
    enabled := true
    severity := .info
    pattern := none
    prompt := none
    languages := none }

/-- A concrete conversation for instantiating hypothetical theorems. -/
def sampleConversation : Conversation :=
  { id := "conv-a.ts-0-1"
    anomalyId := "a.ts-0-1"
    messages := [{ id := "msg-0", role := .assistant, content := "hello", timestamp := 0 }]
    createdAt := 0
    updatedAt := 0 }

/-! Library lemmas about the JavaScript map model. -/

theorem JsMap.get?_set_self {α : Type} (m : JsMap α) (k : String) (v : α) :
    (m.set k v).get? k = some v := by
  induction m with
  | nil => simp [JsMap.set, JsMap.get?]
  | cons p rest ih =>
      obtain ⟨k', v'⟩ := p
      by_cases h : k' = k
      · simp [JsMap.set, JsMap.get?, h]
      · simp [JsMap.set, JsMap.get?, h, ih]

theorem JsMap.get?_set_ne {α : Type} (m : JsMap α) (k k' : String) (v : α)
    (hne : k' ≠ k) : (m.set k v).get? k' = m.get? k' := by
  have hkk' : ¬ k = k' := fun h => hne h.symm
  induction m with
  | nil => simp [JsMap.set, JsMap.get?, hkk']
  | cons p rest ih =>
      obtain ⟨k₀, v₀⟩ := p
      by_cases h : k₀ = k
      · have h' : ¬ k₀ = k' := by rw [h]; exact hkk'
        simp [JsMap.set, JsMap.get?, h, h', hkk']
      · simp [JsMap.set, JsMap.get?, h, ih]

theorem JsMap.get?_delete_self {α : Type} (m : JsMap α) (k : String) :
    (m.delete k).get? k = none := by
  induction m with
  | nil => simp [JsMap.delete, JsMap.get?]
  | cons p rest ih =>
      obtain ⟨k', v⟩ := p
      by_cases h : k' = k
      · simp [JsMap.delete, h, ih]
      · simp [JsMap.delete, JsMap.get?, h, ih]

theorem JsMap.keys_nil {α : Type} : JsMap.keys ([] : JsMap α) = [] := rfl

theorem JsMap.keys_cons {α : Type} (k : String) (v : α) (m : JsMap α) :
    JsMap.keys ((k, v) :: m) = k :: JsMap.keys m := rfl

theorem JsMap.keys_set {α : Type} (m : JsMap α) (k : String) (v : α) :
    JsMap.keys (m.set k v) =
      if k ∈ JsMap.keys m then JsMap.keys m else JsMap.keys m ++ [k] := by
  induction m with
  | nil => simp [JsMap.set, JsMap.keys]
  | cons p rest ih =>
      obtain ⟨k', v'⟩ := p
      by_cases h : k' = k
      · simp [JsMap.set, JsMap.keys_cons, h]
      · have hne : ¬ k = k' := fun hh => h hh.symm
        by_cases hmem : k ∈ JsMap.keys rest
        · simp [JsMap.set, JsMap.keys_cons, h, hne, hmem, ih]
        · simp [JsMap.set, JsMap.keys_cons, h, hne, hmem, ih]

theorem JsMap.keys_nodup_set {α : Type} (m : JsMap α) (k : String) (v : α)
    (h : (JsMap.keys m).Nodup) : (JsMap.keys (m.set k v)).Nodup := by
  rw [JsMap.keys_set]
  by_cases hmem : k ∈ JsMap.keys m
  · simpa [hmem] using h
  · simp [hmem, List.nodup_append, h]

theorem JsMap.mem_of_mem_set {α : Type} (m : JsMap α) (k k₁ : String)
    (v v₁ : α) (h : (k₁, v₁) ∈ m.set k v) :
    (k₁, v₁) ∈ m ∨ (k₁ = k ∧ v₁ = v) := by
  induction m with
  | nil =>
      simp [JsMap.set] at h
      exact Or.inr ⟨h.1, h.2⟩
  | cons p rest ih =>
      obtain ⟨k', v'⟩ := p
      by_cases hk : k' = k
      · simp [JsMap.set, hk] at h
        rcases h with ⟨h1, h2⟩ | h
        · exact Or.inr ⟨h1, h2⟩
        · exact Or.inl (List.mem_cons_of_mem _ h)
      · simp [JsMap.set, hk] at h
        rcases h with ⟨h1, h2⟩ | h
        · exact Or.inl (by simp [h1, h2])
        · rcases ih h with h' | h'
          · exact Or.inl (List.mem_cons_of_mem _ h')
          · exact Or.inr h'

theorem JsMap.mem_of_get?_eq_some {α : Type} (m : JsMap α) (k : String)
    (v : α) (h : m.get? k = some v) : (k, v) ∈ m := by
  induction m with
  | nil => simp [JsMap.get?] at h
  | cons p rest ih =>
      obtain ⟨k', v'⟩ := p
      by_cases hk : k' = k
      · simp [JsMap.get?, hk] at h
        simp [hk, h]
      · simp [JsMap.get?, hk] at h
        exact List.mem_cons_of_mem _ (ih h)

/-! Supporting lemmas about the embedded services. -/

theorem severityOrder_toStr (s : Severity) :
    severityOrder s.toStr = some (severityRank s) := by
  cases s <;> rfl

theorem OpenAIService.parseAnomaliesFrom_get? (lines : List String)
    (fileName : String) (now : Nat) (l : List AIAnomaly) (start i : Nat) :
    (OpenAIService.parseAnomaliesFrom lines fileName now start l).get? i =
      (l.get? i).map (fun a => OpenAIService.parseOne lines fileName now (start + i) a) := by
  induction l generalizing start i with
  | nil => simp [OpenAIService.parseAnomaliesFrom]
  | cons a rest ih =>
      cases i with
      | zero => simp [OpenAIService.parseAnomaliesFrom]
      | succ n =>
          have h1 : start + (n + 1) = start + 1 + n := by omega
          simp only [OpenAIService.parseAnomaliesFrom, List.get?_cons_succ]
          rw [ih, h1]

/-! The claims. -/

/-- C1: for every severity threshold `t` and every anomaly list `A`,
`filterBySeverity(A, t)` retains exactly the anomalies whose severity rank
is at most the rank of `t`, where rank(error) = 0, rank(warning) = 1 and
rank(info) = 2 — in particular no anomaly whose severity rank is at or
below the threshold rank is ever removed. -/
theorem claim_C1_filter_by_severity (t : Severity) (A : List Anomaly) :
    CodeAnalyzer.filterBySeverity A t.toStr =
      A.filter fun a => severityRank a.severity ≤ severityRank t := by
  simp only [CodeAnalyzer.filterBySeverity]
  congr 1
  funext a
  rw [severityOrder_toStr, severityOrder_toStr]
  rfl

/-- C2 counterexample: with a configured client and a remote response whose
content `"not json"` fails `JSON.parse`, `analyze` rethrows the parse error
— it does not return an empty anomaly list. -/
theorem claim_C2_counterexample :
    OpenAIService.analyze true (.ok ⟨some "not json"⟩)
        (fun s => .error (.parseError s)) "file.ts" "" 0 =
      .error (.parseError "not json") ∧
    OpenAIService.analyze true (.ok ⟨some "not json"⟩)
        (fun s => .error (.parseError s)) "file.ts" "" 0 ≠
      .ok ([] : List Anomaly) := by
  refine ⟨rfl, ?_⟩
  intro h
  exact Except.noConfusion h

/-- C2 amended: `analyze` returns an empty anomaly list when the remote
response contains no content; when the content is present but fails JSON
parsing, the `catch` logs and rethrows, so `analyze` fails with the parse
error rather than returning an empty list; a remote-call error also
propagates. -/
theorem claim_C2_analyze_error_policy
    (jsonParse : String → Except Err AnalysisResponse)
    (fileName content c : String) (now : Nat) (e e' : Err)
    (hp : jsonParse c = .error e) :
    OpenAIService.analyze true (.ok ⟨none⟩) jsonParse fileName content now =
      .ok [] ∧
    OpenAIService.analyze true (.ok ⟨some c⟩) jsonParse fileName content now =
      .error e ∧
    OpenAIService.analyze true (.error e') jsonParse fileName content now =
      .error e' := by
  refine ⟨rfl, ?_, rfl⟩
  simp [OpenAIService.analyze, hp]

theorem claim_C2_analyze_error_policy_witness :
    OpenAIService.analyze true (.ok ⟨none⟩)
        (fun s => .error (.parseError s)) "a.ts" "x" 3 = .ok [] ∧
    OpenAIService.analyze true (.ok ⟨some "oops"⟩)
        (fun s => .error (.parseError s)) "a.ts" "x" 3 =
      .error (.parseError "oops") ∧
    OpenAIService.analyze true (.error (.callError "down"))
        (fun s => .error (.parseError s)) "a.ts" "x" 3 =
      .error (.callError "down") :=
  claim_C2_analyze_error_policy (fun s => .error (.parseError s))
    "a.ts" "x" "oops" 3 (.parseError "oops") (.callError "down") rfl

/-- C3: the parser converts every reported anomaly's 1-indexed bounds to a
0-indexed range with start `max 0 (startLine − 1)` and end
`min (n − 1) (endLine − 1)` for an `n`-line file; on a 10-line file
`startLine = 5, endLine = 5` yields start 4 and end 4, and an `endLine`
beyond the file's length is clamped to the last valid 0-indexed line. -/
theorem claim_C3_parse_line_conversion :
    (∀ (aiAnomalies : List AIAnomaly) (fileName content : String) (now i : Nat),
      ((OpenAIService.parseAnomalies aiAnomalies fileName content now).get? i).map
          (fun an => (an.location.range.startLine, an.location.range.endLine)) =
        (aiAnomalies.get? i).map
          (fun a => (max 0 (a.startLine - 1),
            min (((splitNl content).length : Int) - 1) (a.endLine - 1)))) ∧
    ((OpenAIService.parseAnomalies
          [⟨"potential_bug", "error", 5, 5, "t", "d", none⟩]
          "f.ts" tenLineContent 0).get? 0).map
        (fun an => (an.location.range.startLine, an.location.range.endLine)) =
      some (4, 4) ∧
    ((OpenAIService.parseAnomalies
          [⟨"potential_bug", "error", 5, 99, "t", "d", none⟩]
          "f.ts" tenLineContent 0).get? 0).map
        (fun an => (an.location.range.startLine, an.location.range.endLine)) =
      some (4, 9) := by
  refine ⟨?_, by decide, by decide⟩
  intro aiAnomalies fileName content now i
  rw [OpenAIService.parseAnomalies, OpenAIService.parseAnomaliesFrom_get?]
  cases h : aiAnomalies.get? i with
  | none => rfl
  | some a => rfl

/-- C4: a successful `analyzeFile(p)` returns the filtered anomalies and
stores exactly them under `p`, overwriting any prior entry, so a following
`getCachedResults(p)` returns that most recent result and the cache keeps
at most one entry per path; `clearCache(p)` followed by
`getCachedResults(p)` is absent. -/
theorem claim_C4_cache_roundtrip (cache : JsMap AnalysisResult)
    (p threshold : String) (anomalies : List Anomaly) (now now' : Nat)
    (hnodup : (JsMap.keys cache).Nodup) :
    CodeAnalyzer.getCachedResults
        (CodeAnalyzer.analyzeFile cache true p (.ok anomalies) threshold now).2
        (some p) now' =
      some { anomalies := CodeAnalyzer.filterBySeverity anomalies threshold
             analyzedFiles := [p]
             timestamp := now } ∧
    (CodeAnalyzer.analyzeFile cache true p (.ok anomalies) threshold now).1 =
      .ok (CodeAnalyzer.filterBySeverity anomalies threshold) ∧
    (JsMap.keys
      (CodeAnalyzer.analyzeFile cache true p (.ok anomalies) threshold now).2).Nodup ∧
    CodeAnalyzer.getCachedResults (CodeAnalyzer.clearCache cache (some p))
        (some p) now' = none := by
  refine ⟨?_, rfl, ?_, ?_⟩
  · simp [CodeAnalyzer.analyzeFile, CodeAnalyzer.getCachedResults,
      JsMap.get?_set_self]
  · simp only [CodeAnalyzer.analyzeFile, if_true]
    exact JsMap.keys_nodup_set _ _ _ hnodup
  · simp [CodeAnalyzer.clearCache, CodeAnalyzer.getCachedResults,
      JsMap.get?_delete_self]

theorem claim_C4_cache_roundtrip_witness :
    ((JsMap.keys
      ([("old.ts", { anomalies := [], analyzedFiles := ["old.ts"], timestamp := 0 })] :
        JsMap AnalysisResult)).Nodup) ∧
    (CodeAnalyzer.getCachedResults
        (CodeAnalyzer.analyzeFile
          [("old.ts", { anomalies := [], analyzedFiles := ["old.ts"], timestamp := 0 })]
          true "a.ts" (.ok [sampleAnomaly]) "info" 1).2 (some "a.ts") 2 =
      some { anomalies := CodeAnalyzer.filterBySeverity [sampleAnomaly] "info"
             analyzedFiles := ["a.ts"]
             timestamp := 1 } ∧
    (CodeAnalyzer.analyzeFile
        [("old.ts", { anomalies := [], analyzedFiles := ["old.ts"], timestamp := 0 })]
        true "a.ts" (.ok [sampleAnomaly]) "info" 1).1 =
      .ok (CodeAnalyzer.filterBySeverity [sampleAnomaly] "info") ∧
    (JsMap.keys
      (CodeAnalyzer.analyzeFile
        [("old.ts", { anomalies := [], analyzedFiles := ["old.ts"], timestamp := 0 })]
        true "a.ts" (.ok [sampleAnomaly]) "info" 1).2).Nodup ∧
    CodeAnalyzer.getCachedResults
        (CodeAnalyzer.clearCache
          [("old.ts", { anomalies := [], analyzedFiles := ["old.ts"], timestamp := 0 })]
          (some "a.ts")) (some "a.ts") 2 = none) :=
  ⟨by decide,
    claim_C4_cache_roundtrip
      [("old.ts", { anomalies := [], analyzedFiles := ["old.ts"], timestamp := 0 })]
      "a.ts" "info" [sampleAnomaly] 1 2 (by decide)⟩

/-- C5: `startConversation` is idempotent — a second call with the same
anomaly returns the same conversation (same id) and leaves the state, and
so the opening message, unchanged; on first creation the conversation's
single message is an assistant message rendering the anomaly via the
synthesized opening content (title, description and suggestion when
present). -/
theorem claim_C5_startConversation_idempotent (st : ConvState)
    (anomaly : Anomaly) (now1 now2 : Nat)
    (hfresh : st.conversations.get? anomaly.id = none) :
    (ConversationManager.startConversation
        (ConversationManager.startConversation st anomaly now1).2 anomaly now2).1 =
      (ConversationManager.startConversation st anomaly now1).1 ∧
    (ConversationManager.startConversation
        (ConversationManager.startConversation st anomaly now1).2 anomaly now2).2 =
      (ConversationManager.startConversation st anomaly now1).2 ∧
    (ConversationManager.startConversation st anomaly now1).1.id =
      "conv-" ++ anomaly.id ∧
    (ConversationManager.startConversation st anomaly now1).1.messages =
      [{ id := "msg-" ++ toString now1
         role := .assistant
         content := ConversationManager.openingContent anomaly
         timestamp := now1 }] := by
  refine ⟨?_, ?_, ?_, ?_⟩ <;>
    simp [ConversationManager.startConversation, hfresh, JsMap.get?_set_self]

theorem claim_C5_startConversation_idempotent_witness :
    ((⟨[], [], []⟩ : ConvState).conversations.get? sampleAnomaly.id = none) ∧
    ((ConversationManager.startConversation
        (ConversationManager.startConversation ⟨[], [], []⟩ sampleAnomaly 1).2
        sampleAnomaly 2).1 =
      (ConversationManager.startConversation ⟨[], [], []⟩ sampleAnomaly 1).1 ∧
    (ConversationManager.startConversation
        (ConversationManager.startConversation ⟨[], [], []⟩ sampleAnomaly 1).2
        sampleAnomaly 2).2 =
      (ConversationManager.startConversation ⟨[], [], []⟩ sampleAnomaly 1).2 ∧
    (ConversationManager.startConversation ⟨[], [], []⟩ sampleAnomaly 1).1.id =
      "conv-" ++ sampleAnomaly.id ∧
    (ConversationManager.startConversation ⟨[], [], []⟩ sampleAnomaly 1).1.messages =
      [{ id := "msg-" ++ toString 1
         role := .assistant
         content := ConversationManager.openingContent sampleAnomaly
         timestamp := 1 }]) :=
  ⟨rfl, claim_C5_startConversation_idempotent ⟨[], [], []⟩ sampleAnomaly 1 2 rfl⟩

/-- C6: `sendMessage` on an anomaly id with no existing conversation fails
with the `NotFound` error and returns the conversation store completely
unmodified — nothing is created, appended, persisted or emitted. -/
theorem claim_C6_sendMessage_not_found (st : ConvState)
    (anomalyId content : String) (ctx : AnomalyContext)
    (chat : List Message → AnomalyContext → Except Err String) (now : Nat)
    (h : st.conversations.get? anomalyId = none) :
    ConversationManager.sendMessage st anomalyId content ctx chat now =
      (.error .notFound, st) := by
  simp [ConversationManager.sendMessage, h]

theorem claim_C6_sendMessage_not_found_witness :
    ((⟨[], [], []⟩ : ConvState).conversations.get? "ghost" = none) ∧
    ConversationManager.sendMessage ⟨[], [], []⟩ "ghost" "hi" sampleContext
        (fun _ _ => .ok "reply") 5 =
      (.error .notFound, (⟨[], [], []⟩ : ConvState)) :=
  ⟨rfl,
    claim_C6_sendMessage_not_found ⟨[], [], []⟩ "ghost" "hi" sampleContext
      (fun _ _ => .ok "reply") 5 rfl⟩

/-! Lemmas about the rule-merge fold of `ConfigManager.getMergedRules`. -/

theorem mergeFold_get?_not_mem (l : List ReviewRule) :
    ∀ (m : JsMap ReviewRule) (k : String), (∀ r ∈ l, r.id ≠ k) →
      (l.foldl (fun m rule => JsMap.set m rule.id rule) m).get? k = m.get? k := by
  induction l with
  | nil => intro m k _; rfl
  | cons a rest ih =>
      intro m k h
      simp only [List.foldl_cons]
      rw [ih _ k (fun r hr => h r (List.mem_cons_of_mem _ hr))]
      exact JsMap.get?_set_ne _ _ _ _
        (fun hk => h a (List.mem_cons_self _ _) hk.symm)

theorem mergeFold_get?_mem (l : List ReviewRule) :
    ∀ (m : JsMap ReviewRule) (r : ReviewRule), r ∈ l →
      (l.map ReviewRule.id).Nodup →
      (l.foldl (fun m rule => JsMap.set m rule.id rule) m).get? r.id = some r := by
  induction l with
  | nil => intro m r hmem _; cases hmem
  | cons a rest ih =>
      intro m r hmem hnodup
      have hn : (∀ x ∈ rest, ¬ x.id = a.id) ∧
          (List.map ReviewRule.id rest).Nodup := by
        simpa using hnodup
      simp only [List.foldl_cons]
      rcases List.mem_cons.mp hmem with h | h
      · subst h
        rw [mergeFold_get?_not_mem rest _ r.id (fun x hx => hn.1 x hx)]
        exact JsMap.get?_set_self m r.id r
      · exact ih _ r h hn.2

theorem mergeFold_mem (l : List ReviewRule) :
    ∀ (m : JsMap ReviewRule) (k : String) (v : ReviewRule),
      (k, v) ∈ l.foldl (fun m rule => JsMap.set m rule.id rule) m →
      (k, v) ∈ m ∨ (v ∈ l ∧ k = v.id) := by
  induction l with
  | nil => intro m k v h; exact Or.inl h
  | cons a rest ih =>
      intro m k v h
      rcases ih _ k v h with h' | h'
      · rcases JsMap.mem_of_mem_set _ _ _ _ _ h' with h'' | ⟨hk, hv⟩
        · exact Or.inl h''
        · subst hv
          exact Or.inr ⟨List.mem_cons_self _ _, hk⟩
      · exact Or.inr ⟨List.mem_cons_of_mem _ h'.1, h'.2⟩

theorem mergeFold_keys_nodup (l : List ReviewRule) :
    ∀ m : JsMap ReviewRule, (JsMap.keys m).Nodup →
      (JsMap.keys (l.foldl (fun m rule => JsMap.set m rule.id rule) m)).Nodup := by
  induction l with
  | nil => intro m h; exact h
  | cons a rest ih => intro m h; exact ih _ (JsMap.keys_nodup_set _ _ _ h)

/-- C7: with workspace rules applied first and user rules second, for any
id present in both lists the merged result contains the user rule's
fields; rules with distinct ids from both lists are all present; the
merged list has at most one rule per id and contains nothing else. -/
theorem claim_C7_merge_precedence (workspaceRules userRules : List ReviewRule)
    (hw : (workspaceRules.map ReviewRule.id).Nodup)
    (hu : (userRules.map ReviewRule.id).Nodup) :
    (∀ u ∈ userRules, u ∈ ConfigManager.getMergedRules workspaceRules userRules) ∧
    (∀ w ∈ workspaceRules, w.id ∉ userRules.map ReviewRule.id →
      w ∈ ConfigManager.getMergedRules workspaceRules userRules) ∧
    ((ConfigManager.getMergedRules workspaceRules userRules).map ReviewRule.id).Nodup ∧
    (∀ r ∈ ConfigManager.getMergedRules workspaceRules userRules,
      r ∈ userRules ∨ r ∈ workspaceRules) := by
  have hdef : ConfigManager.getMergedRules workspaceRules userRules =
      JsMap.values (userRules.foldl (fun m rule => JsMap.set m rule.id rule)
        (workspaceRules.foldl (fun m rule => JsMap.set m rule.id rule) [])) := rfl
  refine ⟨?_, ?_, ?_, ?_⟩
  · intro u hmem
    have hget := mergeFold_get?_mem userRules
      (workspaceRules.foldl (fun m rule => JsMap.set m rule.id rule) []) u hmem hu
    have hpair := JsMap.mem_of_get?_eq_some _ _ _ hget
    rw [hdef]
    exact List.mem_map.mpr ⟨(u.id, u), hpair, rfl⟩
  · intro w hmem hid
    have hget : (userRules.foldl (fun m rule => JsMap.set m rule.id rule)
        (workspaceRules.foldl (fun m rule => JsMap.set m rule.id rule) [])).get? w.id =
        some w := by
      rw [mergeFold_get?_not_mem userRules _ w.id
        (fun r hr heq => hid (heq ▸ List.mem_map_of_mem ReviewRule.id hr))]
      exact mergeFold_get?_mem workspaceRules _ w hmem hw
    have hpair := JsMap.mem_of_get?_eq_some _ _ _ hget
    rw [hdef]
    exact List.mem_map.mpr ⟨(w.id, w), hpair, rfl⟩
  · rw [hdef]
    have hkeys := mergeFold_keys_nodup userRules
      (workspaceRules.foldl (fun m rule => JsMap.set m rule.id rule) [])
      (mergeFold_keys_nodup workspaceRules [] (by simp [JsMap.keys]))
    have hentry : ∀ p ∈ userRules.foldl (fun m rule => JsMap.set m rule.id rule)
        (workspaceRules.foldl (fun m rule => JsMap.set m rule.id rule) []),
        ReviewRule.id (Prod.snd p) = Prod.fst p := by
      intro p hp
      obtain ⟨k, v⟩ := p
      rcases mergeFold_mem userRules _ k v hp with h' | h'
      · rcases mergeFold_mem workspaceRules _ k v h' with h'' | h''
        · cases h''
        · exact h''.2.symm
      · exact h'.2.symm
    have h2 : List.map ReviewRule.id (JsMap.values
        (userRules.foldl (fun m rule => JsMap.set m rule.id rule)
          (workspaceRules.foldl (fun m rule => JsMap.set m rule.id rule) []))) =
        JsMap.keys
          (userRules.foldl (fun m rule => JsMap.set m rule.id rule)
            (workspaceRules.foldl (fun m rule => JsMap.set m rule.id rule) [])) := by
      simp only [JsMap.values, JsMap.keys, List.map_map]
      exact List.map_congr_left hentry
    rw [h2]
    exact hkeys
  · intro r hr
    rw [hdef] at hr
    obtain ⟨⟨k, v⟩, hp, hv⟩ := List.mem_map.mp hr
    cases hv
    rcases mergeFold_mem userRules _ k v hp with h' | h'
    · rcases mergeFold_mem workspaceRules _ k v h' with h'' | h''
      · cases h''
      · exact Or.inr h''.1
    · exact Or.inl h'.1

theorem claim_C7_merge_precedence_witness :
    (([wsRuleShared, wsRuleOnly].map ReviewRule.id).Nodup) ∧
    (([userRuleShared, userRuleOnly].map ReviewRule.id).Nodup) ∧
    ((∀ u ∈ [userRuleShared, userRuleOnly],
      u ∈ ConfigManager.getMergedRules [wsRuleShared, wsRuleOnly]
        [userRuleShared, userRuleOnly]) ∧
    (∀ w ∈ [wsRuleShared, wsRuleOnly],
      w.id ∉ [userRuleShared, userRuleOnly].map ReviewRule.id →
      w ∈ ConfigManager.getMergedRules [wsRuleShared, wsRuleOnly]
        [userRuleShared, userRuleOnly]) ∧
    ((ConfigManager.getMergedRules [wsRuleShared, wsRuleOnly]
        [userRuleShared, userRuleOnly]).map ReviewRule.id).Nodup ∧
    (∀ r ∈ ConfigManager.getMergedRules [wsRuleShared, wsRuleOnly]
        [userRuleShared, userRuleOnly],
      r ∈ [userRuleShared, userRuleOnly] ∨ r ∈ [wsRuleShared, wsRuleOnly])) :=
  ⟨by decide, by decide,
    claim_C7_merge_precedence [wsRuleShared, wsRuleOnly]
      [userRuleShared, userRuleOnly] (by decide) (by decide)⟩

/-- C8 counterexample: with exactly one cached entry, whose anomaly list is
empty, `getCachedResults` without a path returns absent although the cache
is nonempty, so "returns absent exactly when nothing is cached" fails. -/
theorem claim_C8_counterexample :
    CodeAnalyzer.getCachedResults
        [("a.ts", { anomalies := [], analyzedFiles := ["a.ts"], timestamp := 5 })]
        none 7 = none ∧
    ([("a.ts", { anomalies := [], analyzedFiles := ["a.ts"], timestamp := 5 })] :
        JsMap AnalysisResult) ≠ ([] : JsMap AnalysisResult) :=
  ⟨rfl, by decide⟩

/-- C8 amended: `getCachedResults` without a path returns the synthesized
aggregate of all cached entries' anomalies and analyzed file paths, and
returns absent exactly when the aggregated anomaly list is empty — in
particular when nothing is cached, but also when every cached entry has an
empty anomaly list. -/
theorem claim_C8_aggregate (cache : JsMap AnalysisResult) (now : Nat) :
    (CodeAnalyzer.getCachedResults cache none now = none ↔
      ∀ r ∈ JsMap.values cache, r.anomalies = []) ∧
    (CodeAnalyzer.getCachedResults cache none now = none ∨
      CodeAnalyzer.getCachedResults cache none now =
        some { anomalies :=
                 ((JsMap.values cache).map AnalysisResult.anomalies).flatten
               analyzedFiles :=
                 ((JsMap.values cache).map AnalysisResult.analyzedFiles).flatten
               timestamp := now }) := by
  have hiff : ((JsMap.values cache).map AnalysisResult.anomalies).flatten.length = 0 ↔
      ∀ r ∈ JsMap.values cache, r.anomalies = [] := by
    rw [List.length_eq_zero, List.flatten_eq_nil_iff]
    constructor
    · intro h r hr
      exact h _ (List.mem_map_of_mem _ hr)
    · intro h x hx
      obtain ⟨r, hr, rfl⟩ := List.mem_map.mp hx
      exact h r hr
  have hval : CodeAnalyzer.getCachedResults cache none now =
      if ((JsMap.values cache).map AnalysisResult.anomalies).flatten.length = 0 then
        none
      else
        some { anomalies :=
                 ((JsMap.values cache).map AnalysisResult.anomalies).flatten
               analyzedFiles :=
                 ((JsMap.values cache).map AnalysisResult.analyzedFiles).flatten
               timestamp := now } := rfl
  constructor
  · rw [hval]
    by_cases h : ((JsMap.values cache).map AnalysisResult.anomalies).flatten.length = 0
    · rw [if_pos h]
      exact iff_of_true rfl (hiff.mp h)
    · rw [if_neg h]
      exact iff_of_false (by simp) (fun hall => h (hiff.mpr hall))
  · rw [hval]
    by_cases h : ((JsMap.values cache).map AnalysisResult.anomalies).flatten.length = 0
    · exact Or.inl (if_pos h)
    · exact Or.inr (if_neg h)

/-- C9: `analyzeRepository` tolerates per-file failures — a failing file is
skipped rather than aborting the scan (the call never fails once
configured), and over 3 files where file 2 fails the result carries the
filtered anomalies of files 1 and 3 and `analyzedFiles` is exactly those
two paths, with both successes cached. -/
theorem claim_C9_repository_partial_failure (cache : JsMap AnalysisResult)
    (threshold : String) (now : Nat) (p1 p2 p3 : String)
    (a1 a3 : List Anomaly) (e : Err) :
    CodeAnalyzer.analyzeRepository cache true
        [(p1, .ok a1), (p2, .error e), (p3, .ok a3)] threshold now =
      .ok ({ anomalies := CodeAnalyzer.filterBySeverity a1 threshold ++
               CodeAnalyzer.filterBySeverity a3 threshold
             analyzedFiles := [p1, p3]
             timestamp := now },
        (cache.set p1
            { anomalies := CodeAnalyzer.filterBySeverity a1 threshold
              analyzedFiles := [p1]
              timestamp := now }).set p3
            { anomalies := CodeAnalyzer.filterBySeverity a3 threshold
              analyzedFiles := [p3]
              timestamp := now }) ∧
    ∀ files : List (String × Except Err (List Anomaly)),
      (CodeAnalyzer.analyzeRepository cache true files threshold now).isOk = true := by
  constructor
  · simp [CodeAnalyzer.analyzeRepository, CodeAnalyzer.analyzeFile]
  · intro files
    rfl

/-- C10: when the model chat call inside `sendMessage` fails on an existing
conversation, the user message appended before the call stays in the
in-memory conversation with `updatedAt` advanced to the call time, while
nothing is persisted and no conversation-updated event is emitted — the
append-then-call sequence is not rolled back. -/
theorem claim_C10_sendMessage_no_rollback (st : ConvState)
    (anomalyId content : String) (ctx : AnomalyContext)
    (conversation : Conversation) (e : Err)
    (chat : List Message → AnomalyContext → Except Err String) (now : Nat)
    (hfound : st.conversations.get? anomalyId = some conversation)
    (hchat : chat = fun _ _ => .error e) :
    (ConversationManager.sendMessage st anomalyId content ctx chat now).1 =
      .error e ∧
    ((ConversationManager.sendMessage st anomalyId content ctx chat now).2).conversations.get?
        anomalyId =
      some { conversation with
               messages := conversation.messages ++
                 [{ id := "msg-" ++ toString now
                    role := .user
                    content := content
                    timestamp := now }]
               updatedAt := now } ∧
    ((ConversationManager.sendMessage st anomalyId content ctx chat now).2).persisted =
      st.persisted ∧
    ((ConversationManager.sendMessage st anomalyId content ctx chat now).2).firedEvents =
      st.firedEvents := by
  subst hchat
  refine ⟨?_, ?_, ?_, ?_⟩ <;>
    simp [ConversationManager.sendMessage, hfound, JsMap.get?_set_self]

theorem claim_C10_sendMessage_no_rollback_witness :
    ((⟨[("a.ts-0-1", sampleConversation)], [("a.ts-0-1", sampleConversation)],
        []⟩ : ConvState).conversations.get? "a.ts-0-1" =
      some sampleConversation) ∧
    ((fun (_ : List Message) (_ : AnomalyContext) =>
        (.error (.callError "down") : Except Err String)) =
      fun _ _ => .error (.callError "down")) ∧
    ((ConversationManager.sendMessage
        ⟨[("a.ts-0-1", sampleConversation)], [("a.ts-0-1", sampleConversation)], []⟩
        "a.ts-0-1" "why" sampleContext
        (fun _ _ => .error (.callError "down")) 9).1 =
      .error (.callError "down") ∧
    ((ConversationManager.sendMessage
        ⟨[("a.ts-0-1", sampleConversation)], [("a.ts-0-1", sampleConversation)], []⟩
        "a.ts-0-1" "why" sampleContext
        (fun _ _ => .error (.callError "down")) 9).2).conversations.get? "a.ts-0-1" =
      some { sampleConversation with
               messages := sampleConversation.messages ++
                 [{ id := "msg-" ++ toString 9
                    role := .user
                    content := "why"
                    timestamp := 9 }]
               updatedAt := 9 } ∧
    ((ConversationManager.sendMessage
        ⟨[("a.ts-0-1", sampleConversation)], [("a.ts-0-1", sampleConversation)], []⟩
        "a.ts-0-1" "why" sampleContext
        (fun _ _ => .error (.callError "down")) 9).2).persisted =
      [("a.ts-0-1", sampleConversation)] ∧
    ((ConversationManager.sendMessage
        ⟨[("a.ts-0-1", sampleConversation)], [("a.ts-0-1", sampleConversation)], []⟩
        "a.ts-0-1" "why" sampleContext
        (fun _ _ => .error (.callError "down")) 9).2).firedEvents = []) :=
  ⟨by decide, rfl,
    claim_C10_sendMessage_no_rollback
      ⟨[("a.ts-0-1", sampleConversation)], [("a.ts-0-1", sampleConversation)], []⟩
      "a.ts-0-1" "why" sampleContext sampleConversation (.callError "down")
      (fun _ _ => .error (.callError "down")) 9 (by decide) rfl⟩

end Syntax2Proof
